import Mathlib

/-!
Verification development for the assessment and progression engine of
the-system repository.  The TypeScript sources are shallowly embedded:
JavaScript numbers are modelled as exact rationals, timestamps in
milliseconds as integers, keyed database tables as lists of row
structures, and the supabase query combinators, .single() and
.limit(1).single(), as the pure list operations they perform.
-/

namespace TheSystem

/-- Model of Math.round on the non-negative values the engine produces:
round half away from zero, i.e. floor (x + 1/2). -/
def jsRound (q : ℚ) : ℤ := ⌊q + 1/2⌋

/-- Rounding to two decimal places, JavaScript style:
Math.round (x * 100) / 100. -/
def round2 (q : ℚ) : ℚ := (jsRound (q * 100) : ℚ) / 100

/-- Assessment tier, from the lib types module: lesson_check,
module_exam, term_exam, cumulative_review. -/
inductive AssessmentType where
  | lesson_check
  | module_exam
  | term_exam
  | cumulative_review
deriving DecidableEq, Repr

open AssessmentType

/-- PASS_THRESHOLD constant of quiz-engine (lesson checks). -/
def PASS_THRESHOLD : ℚ := 80

/-- ASSESSMENT_THRESHOLDS record of quiz-engine. -/
def ASSESSMENT_THRESHOLDS : AssessmentType → ℚ
  | lesson_check => 80
  | module_exam => 75
  | term_exam => 70
  | cumulative_review => 70

/-- COOLDOWN_HOURS record of quiz-engine. -/
def COOLDOWN_HOURS : AssessmentType → ℕ
  | lesson_check => 0
  | module_exam => 24
  | term_exam => 48
  | cumulative_review => 24

/-- Entry of the MAX_ATTEMPTS record: count attempts per period_days. -/
structure AttemptLimits where
  count : ℕ
  period_days : ℕ
deriving DecidableEq, Repr

/-- MAX_ATTEMPTS record of quiz-engine. -/
def MAX_ATTEMPTS : AssessmentType → AttemptLimits
  | lesson_check => ⟨3, 1⟩
  | module_exam => ⟨3, 7⟩
  | term_exam => ⟨2, 14⟩
  | cumulative_review => ⟨3, 7⟩

/-- getPassThreshold of quiz-engine. -/
def getPassThreshold (t : AssessmentType) : ℚ := ASSESSMENT_THRESHOLDS t

/-- Letter grades. -/
inductive GradeLetter where
  | A
  | B
  | C
  | D
  | F
deriving DecidableEq, Repr

/-- calculateGrade of quiz-engine: cascaded score comparisons. -/
def calculateGrade (score : ℚ) : GradeLetter :=
  if score ≥ 90 then .A
  else if score ≥ 80 then .B
  else if score ≥ 70 then .C
  else if score ≥ 60 then .D
  else .F

/-- GradeEntry input of computeGPA. -/
structure GradeEntry where
  assessment_type : AssessmentType
  score : ℚ

/-- The weights table local to computeGPA. -/
def gpaWeight : AssessmentType → ℚ
  | lesson_check => 0
  | module_exam => 1
  | term_exam => 2
  | cumulative_review => 1/2

/-- computeGPA of quiz-engine: fold accumulating weightedSum and
totalWeight, skipping zero-weight entries, null when totalWeight = 0,
else the rounded quotient. -/
def computeGPA (entries : List GradeEntry) : Option ℚ :=
  let acc := entries.foldl
    (fun (p : ℚ × ℚ) e =>
      let w := gpaWeight e.assessment_type
      if w = 0 then p else (p.1 + e.score * w, p.2 + w))
    (0, 0)
  if acc.2 = 0 then none else some (round2 (acc.1 / acc.2))

/-- Specification-side weighted sum over all entries (zero-weight
entries contribute zero). -/
def specWeightedSum (entries : List GradeEntry) : ℚ :=
  (entries.map (fun e => e.score * gpaWeight e.assessment_type)).sum

/-- Specification-side total weight over all entries. -/
def specTotalWeight (entries : List GradeEntry) : ℚ :=
  (entries.map (fun e => gpaWeight e.assessment_type)).sum

/-! Grading functions (quiz-engine, evaluateQuiz / evaluateAssessment).
Questions and answers for lesson checks and institutional assessments
share the same shape for the fields the engine reads, so one embedded
structure serves both. -/

/-- Answer row: id plus optional explanation text. -/
structure Answer where
  id : String
  explanation : Option String
deriving DecidableEq, Repr

/-- Question row: id plus nullable concept tag. -/
structure Question where
  id : String
  concept_tag : Option String
deriving DecidableEq, Repr

/-- One entry of a submission: chosen answer for a question. -/
structure SubmissionAnswer where
  question_id : String
  answer_id : String
deriving DecidableEq, Repr

/-- QuizSubmission / AssessmentSubmission: the answers array. -/
structure QuizSubmission where
  answers : List SubmissionAnswer
deriving DecidableEq, Repr

/-- QuestionFeedback produced per graded question. -/
structure QuestionFeedback where
  question_id : String
  correct : Bool
  selected_answer_id : String
  correct_answer_id : String
  explanation : Option String
  concept_tag : Option String
deriving DecidableEq, Repr

/-- QuizResult returned by evaluateQuiz. -/
structure QuizResult where
  score : ℚ
  passed : Bool
  total_questions : ℕ
  correct_count : ℕ
  feedback : List QuestionFeedback
deriving DecidableEq, Repr

/-- AssessmentResult returned by evaluateAssessment. -/
structure AssessmentResult where
  score : ℚ
  grade : GradeLetter
  passed : Bool
  total_questions : ℕ
  correct_count : ℕ
  feedback : List QuestionFeedback
  weak_concepts : List String
  can_retry : Bool
  next_retry_available_at : Option ℤ
deriving DecidableEq, Repr

/-- JavaScript Map.get over an association list with unique keys. -/
def mapGet {α : Type} (m : List (String × α)) (k : String) : Option α :=
  (m.find? (fun p => decide (p.1 = k))).map (fun p => p.2)

/-- The submission.answers.find call of the grading loops. -/
def findSubmitted (submission : QuizSubmission) (qid : String) :
    Option SubmissionAnswer :=
  submission.answers.find? (fun a => decide (a.question_id = qid))

/-- Body shared by both grading loops of quiz-engine: walk the question
list in order; skip a question whose id is missing from the
correct-answer map; otherwise compare the selected answer id (empty
string when unanswered) with the correct answer id, attach the
explanation of a wrong non-empty pick when the answers map has one, and
push a feedback entry.  Returns (correctCount, feedback). -/
def gradeFold (submission : QuizSubmission)
    (correctAnswers allAnswers : List (String × Answer)) :
    List Question → ℕ × List QuestionFeedback
  | [] => (0, [])
  | q :: rest =>
    let r := gradeFold submission correctAnswers allAnswers rest
    match mapGet correctAnswers q.id with
    | none => r
    | some correct =>
      let selectedAnswerId :=
        ((findSubmitted submission q.id).map (fun a => a.answer_id)).getD ""
      let isCorrect := decide (selectedAnswerId = correct.id)
      let explanation :=
        if ¬ isCorrect ∧ selectedAnswerId ≠ "" then
          (mapGet allAnswers selectedAnswerId).bind (fun a => a.explanation)
        else none
      ((if isCorrect then 1 else 0) + r.1,
        { question_id := q.id
          correct := isCorrect
          selected_answer_id := selectedAnswerId
          correct_answer_id := correct.id
          explanation := explanation
          concept_tag := q.concept_tag } :: r.2)

/-- evaluateQuiz of quiz-engine. -/
def evaluateQuiz (submission : QuizSubmission) (questions : List Question)
    (correctAnswers allAnswers : List (String × Answer)) : QuizResult :=
  let totalQuestions := questions.length
  let r := gradeFold submission correctAnswers allAnswers questions
  let score : ℚ :=
    if totalQuestions > 0 then
      (jsRound ((r.1 : ℚ) / (totalQuestions : ℚ) * 10000) : ℚ) / 100
    else 0
  { score := score
    passed := decide (score ≥ PASS_THRESHOLD)
    total_questions := totalQuestions
    correct_count := r.1
    feedback := r.2 }

/-- JavaScript Set insertion order model: append when absent. -/
def insertUnique (l : List String) (s : String) : List String :=
  if s ∈ l then l else l ++ [s]

/-- First-occurrence deduplication, the order Array.from gives for a
Set filled left to right. -/
def dedup (l : List String) : List String := l.foldl insertUnique []

/-- Per-question contribution to the incorrectConcepts set of
evaluateAssessment: a non-empty concept tag of a question that has a
correct-answer entry and was answered incorrectly. -/
def missTags (submission : QuizSubmission)
    (correctAnswers : List (String × Answer)) : List Question → List String
  | [] => []
  | q :: rest =>
    let r := missTags submission correctAnswers rest
    match mapGet correctAnswers q.id with
    | none => r
    | some correct =>
      let selectedAnswerId :=
        ((findSubmitted submission q.id).map (fun a => a.answer_id)).getD ""
      if selectedAnswerId = correct.id then r
      else
        match q.concept_tag with
        | some s => if s ≠ "" then s :: r else r
        | none => r

/-- AssessmentAttempt as the retry evaluator reads it: the creation
timestamp, in milliseconds since the epoch. -/
structure AssessmentAttempt where
  created_at : ℤ
deriving DecidableEq, Repr

/-- Result shape of checkRetryEligibility; the ISO string
next_retry_available_at is modelled by the timestamp it renders. -/
structure RetryResult where
  canRetry : Bool
  nextRetryAt : Option ℤ
deriving DecidableEq, Repr

/-- The reduce call picking the attempt with the smallest created_at
(strict comparison, so the first of equals wins), with initial value
the first element. -/
def oldestAttempt (h : AssessmentAttempt) (tl : List AssessmentAttempt) :
    AssessmentAttempt :=
  tl.foldl (fun o a => if a.created_at < o.created_at then a else o) h

/-- The reduce call picking the attempt with the largest created_at
(strict comparison, so the first of equals wins), with initial value
the first element. -/
def latestAttempt (h : AssessmentAttempt) (tl : List AssessmentAttempt) :
    AssessmentAttempt :=
  tl.foldl (fun l a => if a.created_at > l.created_at then a else l) h

/-- checkRetryEligibility of quiz-engine.  Date.now() is passed
explicitly as now; durations are in milliseconds.  The empty-recent
case inside the over-limit branch cannot arise (every tier allows at
least two attempts per period) and is mapped to the eligible result. -/
def checkRetryEligibility (assessmentType : AssessmentType)
    (previousAttempts : List AssessmentAttempt) (now : ℤ) : RetryResult :=
  let limits := MAX_ATTEMPTS assessmentType
  let cooldownMs : ℤ := (COOLDOWN_HOURS assessmentType : ℤ) * 60 * 60 * 1000
  let periodStart : ℤ := now - (limits.period_days : ℤ) * 24 * 60 * 60 * 1000
  let recentAttempts :=
    previousAttempts.filter (fun a => decide (a.created_at ≥ periodStart))
  if recentAttempts.length ≥ limits.count then
    match recentAttempts with
    | [] => { canRetry := true, nextRetryAt := none }
    | h :: tl =>
      let oldestInPeriod := oldestAttempt h tl
      { canRetry := false
        nextRetryAt := some (oldestInPeriod.created_at +
          (limits.period_days : ℤ) * 24 * 60 * 60 * 1000) }
  else
    match previousAttempts with
    | [] => { canRetry := true, nextRetryAt := none }
    | h :: tl =>
      if cooldownMs > 0 then
        let mostRecent := latestAttempt h tl
        let cooldownEnd := mostRecent.created_at + cooldownMs
        if now < cooldownEnd then
          { canRetry := false, nextRetryAt := some cooldownEnd }
        else { canRetry := true, nextRetryAt := none }
      else { canRetry := true, nextRetryAt := none }

/-- evaluateAssessment of quiz-engine.  Date.now() inside the retry
check is passed explicitly as now. -/
def evaluateAssessment (submission : QuizSubmission)
    (assessmentType : AssessmentType) (questions : List Question)
    (correctAnswers allAnswers : List (String × Answer))
    (previousAttempts : List AssessmentAttempt) (now : ℤ) :
    AssessmentResult :=
  let totalQuestions := questions.length
  let r := gradeFold submission correctAnswers allAnswers questions
  let score : ℚ :=
    if totalQuestions > 0 then
      (jsRound ((r.1 : ℚ) / (totalQuestions : ℚ) * 10000) : ℚ) / 100
    else 0
  let threshold := getPassThreshold assessmentType
  let grade := calculateGrade score
  let passed := decide (score ≥ threshold)
  let retry := checkRetryEligibility assessmentType previousAttempts now
  { score := score
    grade := grade
    passed := passed
    total_questions := totalQuestions
    correct_count := r.1
    feedback := r.2
    weak_concepts := dedup (missTags submission correctAnswers questions)
    can_retry := !passed && retry.canRetry
    next_retry_available_at := retry.nextRetryAt }

/-! Weak-area ledger (weak-areas module).  The weak_areas table keyed by
(user, concept_tag) is modelled, for one user, as a function from tag to
the optional row content; updateWeakAreas reads the current row fresh on
each loop step, so the fold below passes the state through. -/

/-- Content of a weak_areas row for one (user, tag) key. -/
structure WeakRow where
  error_count : ℕ
  last_tested_at : ℤ
deriving DecidableEq, Repr

/-- One user's slice of the weak_areas table. -/
def Ledger : Type := String → Option WeakRow

/-- One miss passed to updateWeakAreas. -/
structure ConceptMiss where
  concept_tag : String
  question_id : String
deriving DecidableEq, Repr

/-- Single step of the updateWeakAreas loop at one tag: count the
misses of that tag in this call, then increment the existing row or
insert a fresh one, refreshing last_tested_at to now. -/
def ledgerStep (misses : List ConceptMiss) (now : ℤ) (st : Ledger)
    (tag : String) : Ledger :=
  let errorCount :=
    (misses.filter (fun c => decide (c.concept_tag = tag))).length
  match st tag with
  | some existing =>
    fun t => if t = tag then
        some ⟨existing.error_count + errorCount, now⟩
      else st t
  | none =>
    fun t => if t = tag then some ⟨errorCount, now⟩
      else st t

/-- updateWeakAreas of weak-areas: early return on an empty miss list,
else loop over the deduplicated tags. -/
def updateWeakAreas (misses : List ConceptMiss) (now : ℤ) (st : Ledger) :
    Ledger :=
  if misses.length = 0 then st
  else
    let uniqueTags := dedup (misses.map (fun c => c.concept_tag))
    uniqueTags.foldl (ledgerStep misses now) st

/-- Weak-area row as read back for display (user column dropped, one
user's rows). -/
structure WeakArea where
  id : String
  concept_tag : String
  error_count : ℕ
deriving DecidableEq, Repr

/-- REVIEW_THRESHOLD of weak-areas. -/
def REVIEW_THRESHOLD : ℕ := 3

/-- getRequiredReviews of weak-areas: the concept_tag column of the
user's rows with error_count at or above the threshold. -/
def getRequiredReviews (rows : List WeakArea) : List String :=
  (rows.filter (fun w => decide (w.error_count ≥ REVIEW_THRESHOLD))).map
    (fun w => w.concept_tag)

/-- The requiredReviews list computed in DashboardView. -/
def dashboardRequiredReviews (weakAreas : List WeakArea) : List WeakArea :=
  weakAreas.filter (fun w => decide (w.error_count ≥ 3))

/-- The blocks-progression flag DashboardView renders next to a listed
required review. -/
def dashboardBlockingFlag (w : WeakArea) : Bool :=
  decide (w.error_count ≥ 5)

/-! Progression gate (progression module).  The tables the term and
year checks read are modelled as lists of rows; .single() yields a row
exactly when the filtered list has exactly one element (supabase errors
on zero or several rows, and the callers treat an error as no data),
while .limit(1).single() yields the first row when one exists. -/

/-- A terms row. -/
structure TermRow where
  id : String
  order : ℤ
  year_id : String
deriving DecidableEq, Repr

/-- A years row. -/
structure YearRow where
  id : String
  order : ℤ
deriving DecidableEq, Repr

/-- An assessments row (scope columns nullable). -/
structure AssessmentRow where
  id : String
  term_id : Option String
  year_id : Option String
  type : AssessmentType
deriving DecidableEq, Repr

/-- An assessment_attempts row (columns the gate reads). -/
structure AttemptRow where
  user_id : String
  assessment_id : String
  passed : Bool
deriving DecidableEq, Repr

/-- A weak_areas row (columns the gate reads). -/
structure WeakAreaRow where
  user_id : String
  concept_tag : String
  error_count : ℕ
deriving DecidableEq, Repr

/-- A transcript_entries row (columns the gate reads). -/
structure TranscriptRow where
  user_id : String
  year_id : String
  assessment_type : AssessmentType
  score : ℚ
  passed : Bool
deriving DecidableEq, Repr

/-- The persisted state the progression gate queries. -/
structure DB where
  terms : List TermRow
  years : List YearRow
  assessments : List AssessmentRow
  attempts : List AttemptRow
  weak_areas : List WeakAreaRow
  transcript_entries : List TranscriptRow

/-- Model of .single(): data exactly when the result set is a single
row. -/
def single {α : Type} : List α → Option α
  | [x] => some x
  | _ => none

/-- Model of .limit(1).single(): the first row when any exists. -/
def limitOneSingle {α : Type} (l : List α) : Option α := l.head?

/-- Result shape of the access checks. -/
structure AccessResult where
  accessible : Bool
  reason : Option String
deriving DecidableEq, Repr

/-- The term-exam lookup for a term: assessments row with that term_id
and type term_exam. -/
def findTermExam (db : DB) (tid : String) : Option AssessmentRow :=
  single (db.assessments.filter
    (fun a => decide (a.term_id = some tid ∧ a.type = term_exam)))

/-- The cumulative-review lookup for a year. -/
def findCumulativeReview (db : DB) (yid : String) : Option AssessmentRow :=
  single (db.assessments.filter
    (fun a => decide (a.year_id = some yid ∧ a.type = cumulative_review)))

/-- The passing-attempt probe: .limit(1).single() over the user's
passed attempts for an assessment. -/
def findPassingAttempt (db : DB) (user aid : String) : Option AttemptRow :=
  limitOneSingle (db.attempts.filter
    (fun a => decide (a.user_id = user ∧ a.assessment_id = aid ∧
      a.passed = true)))

/-- Exam-passed reason string of canAccessTerm. -/
def termExamReason : String :=
  "You must pass the previous term\x27s final examination before proceeding to this term."

/-- Weak-area reason string of canAccessTerm. -/
def weakAreaReason (concepts : String) : String :=
  "The following concepts require targeted review before progression: " ++
    concepts ++ "."

/-- The user's weak_areas rows filtered to error_count at least 3 (the
weakAreas and blockingAreas locals of canAccessTerm). -/
def blockingRows (db : DB) (user : String) : List WeakAreaRow :=
  (db.weak_areas.filter (fun w => decide (w.user_id = user))).filter
    (fun w => decide (w.error_count ≥ 3))

/-- The weak-area tail of canAccessTerm: any blocking row denies access
with the joined concept list in the reason. -/
def termWeakAreaCheck (db : DB) (user : String) : AccessResult :=
  let blockingAreas := blockingRows db user
  if blockingAreas.length > 0 then
    { accessible := false
      reason := some (weakAreaReason
        (String.intercalate ", " (blockingAreas.map (fun w => w.concept_tag)))) }
  else { accessible := true, reason := none }

/-- canAccessTerm of progression. -/
def canAccessTerm (db : DB) (user termId : String) : AccessResult :=
  match single (db.terms.filter (fun t => decide (t.id = termId))) with
  | none => { accessible := false, reason := some "Term not found." }
  | some term =>
    if term.order = 1 then { accessible := true, reason := none }
    else
      match single (db.terms.filter (fun t => decide (t.order = term.order - 1))) with
      | none => { accessible := true, reason := none }
      | some prevTerm =>
        match findTermExam db prevTerm.id with
        | some termExam =>
          match findPassingAttempt db user termExam.id with
          | none => { accessible := false, reason := some termExamReason }
          | some _ => termWeakAreaCheck db user
        | none => termWeakAreaCheck db user

/-- Term-exam failure reason string of canAccessYear. -/
def yearTermExamReason : String :=
  "All term examinations in the previous year must be passed before advancing."

/-- Cumulative-review failure reason string of canAccessYear. -/
def cumulativeReviewReason : String :=
  "The cumulative review for the previous year must be passed before advancing."

/-- GPA failure reason string of canAccessYear. -/
def gpaReason (rounded : ℤ) : String :=
  "Your GPA for the previous year (" ++ toString rounded ++
    ") is below the required minimum of 70."

/-- The loop of canAccessYear over the previous year's terms: the
first term whose term exam exists and lacks a passing attempt aborts
with the failure result. -/
def checkPrevTermExams (db : DB) (user : String) :
    List TermRow → Option AccessResult
  | [] => none
  | t :: rest =>
    match findTermExam db t.id with
    | some termExam =>
      match findPassingAttempt db user termExam.id with
      | none => some { accessible := false, reason := some yearTermExamReason }
      | some _ => checkPrevTermExams db user rest
    | none => checkPrevTermExams db user rest

/-- The transcript query of canAccessYear: the user's passed
module_exam and term_exam entries of the previous year. -/
def yearTranscript (db : DB) (user yid : String) : List TranscriptRow :=
  db.transcript_entries.filter (fun e =>
    decide (e.user_id = user ∧ e.year_id = yid ∧ e.passed = true ∧
      (e.assessment_type = module_exam ∨ e.assessment_type = term_exam)))

/-- The per-entry weight of the year-GPA loop. -/
def yearEntryWeight (e : TranscriptRow) : ℚ :=
  if e.assessment_type = term_exam then 2 else 1

/-- The GPA tail of canAccessYear: entries present means the weighted
average is computed (unrounded) and compared with 70; no entries means
the check is skipped. -/
def yearGpaCheck (entries : List TranscriptRow) : AccessResult :=
  if entries.length > 0 then
    let weightedSum :=
      entries.foldl (fun s e => s + e.score * yearEntryWeight e) 0
    let totalWeight :=
      entries.foldl (fun s e => s + yearEntryWeight e) (0 : ℚ)
    let yearGPA := if totalWeight > 0 then weightedSum / totalWeight else 0
    if yearGPA < 70 then
      { accessible := false, reason := some (gpaReason (jsRound yearGPA)) }
    else { accessible := true, reason := none }
  else { accessible := true, reason := none }

/-- The cumulative-review block of canAccessYear followed by its GPA
block. -/
def yearCumulativeStage (db : DB) (user : String) (prevYear : YearRow) :
    AccessResult :=
  match findCumulativeReview db prevYear.id with
  | some review =>
    match findPassingAttempt db user review.id with
    | none => { accessible := false, reason := some cumulativeReviewReason }
    | some _ => yearGpaCheck (yearTranscript db user prevYear.id)
  | none => yearGpaCheck (yearTranscript db user prevYear.id)

/-- The body of canAccessYear once the previous year is resolved: fetch
its terms, run the term-exam loop, then the cumulative-review and GPA
blocks. -/
def yearPrevYearStage (db : DB) (user : String) (prevYear : YearRow) :
    AccessResult :=
  let prevTerms := db.terms.filter (fun t => decide (t.year_id = prevYear.id))
  if prevTerms.length = 0 then { accessible := true, reason := none }
  else
    match checkPrevTermExams db user prevTerms with
    | some r => r
    | none => yearCumulativeStage db user prevYear

/-- canAccessYear of progression.  The reason string renders
Math.round of the GPA; Math.round is jsRound here. -/
def canAccessYear (db : DB) (user yearId : String) : AccessResult :=
  match single (db.years.filter (fun y => decide (y.id = yearId))) with
  | none => { accessible := false, reason := some "Year not found." }
  | some year =>
    if year.order = 1 then { accessible := true, reason := none }
    else
      match single (db.years.filter (fun y => decide (y.order = year.order - 1))) with
      | none => { accessible := true, reason := none }
      | some prevYear => yearPrevYearStage db user prevYear

/-! Specification-side definitions: restatements of the spec's wording
that the theorems compare with the embedded code. -/

/-- The rolling period of a tier, in milliseconds. -/
def periodMs (t : AssessmentType) : ℤ :=
  ((MAX_ATTEMPTS t).period_days : ℤ) * 24 * 60 * 60 * 1000

/-- The cooldown of a tier, in milliseconds. -/
def cooldownMsOf (t : AssessmentType) : ℤ :=
  (COOLDOWN_HOURS t : ℤ) * 60 * 60 * 1000

/-- The attempts inside the rolling window ending at now. -/
def recentOf (t : AssessmentType) (prev : List AssessmentAttempt)
    (now : ℤ) : List AssessmentAttempt :=
  prev.filter (fun a => decide (a.created_at ≥ now - periodMs t))

/-- Specification-side previous-year GPA: weighted average of the
transcript entries, module_exam weight 1 and term_exam weight 2. -/
def specYearGPA (entries : List TranscriptRow) : ℚ :=
  (entries.map (fun e => e.score * yearEntryWeight e)).sum /
    (entries.map yearEntryWeight).sum

/-- The previous-term exam requirement of the spec: the term either has
no term exam, or the user has a passing attempt on it. -/
def prevExamRequirementMet (db : DB) (user tid : String) : Bool :=
  match findTermExam db tid with
  | some e => (findPassingAttempt db user e.id).isSome
  | none => true

/-- Every term of a list meets the exam requirement. -/
def allPrevTermExamsPassed (db : DB) (user : String)
    (terms : List TermRow) : Bool :=
  terms.all (fun t => prevExamRequirementMet db user t.id)

/-- The cumulative-review requirement of the spec: no review defined,
or a passing attempt on it. -/
def cumulativeReviewPassed (db : DB) (user yid : String) : Bool :=
  match findCumulativeReview db yid with
  | some r => (findPassingAttempt db user r.id).isSome
  | none => true

/-! Concrete example data used by witnesses and counterexamples. -/

/-- Two-question bank: q1 has a correct answer on file, q2 does not. -/
def exQ1 : Question := ⟨"q1", none⟩

/-- The question missing from the correct-answer lookup. -/
def exQ2 : Question := ⟨"q2", some "tag"⟩

/-- Correct-answer lookup covering only q1. -/
def exCorrect : List (String × Answer) := [("q1", ⟨"a1", none⟩)]

/-- All-answers lookup for the example. -/
def exAll : List (String × Answer) := [("a1", ⟨"a1", none⟩)]

/-- Submission answering q1 correctly. -/
def exSub : QuizSubmission := ⟨[⟨"q1", "a1"⟩]⟩

/-- A fixed clock value for the retry examples. -/
def exNow : ℤ := 1700000000000

/-- One term-exam attempt ten hours before exNow. -/
def exAttempts : List AssessmentAttempt := [⟨1699964000000⟩]

/-- Three module-exam attempts inside the last seven days of exNow. -/
def exThreeAttempts : List AssessmentAttempt :=
  [⟨1699900000000⟩, ⟨1699800000000⟩, ⟨1699700000000⟩]

/-- Database for the term-access scenario: term t2 follows t1, whose
exam the user passed, and the user carries a weak-area row with
error_count 3 for the concept centers. -/
def exTermDB : DB :=
  { terms := [⟨"t1", 1, "y1"⟩, ⟨"t2", 2, "y1"⟩]
    years := [⟨"y1", 1⟩]
    assessments := [⟨"te1", some "t1", none, term_exam⟩]
    attempts := [⟨"u", "te1", true⟩]
    weak_areas := [⟨"u", "centers", 3⟩]
    transcript_entries := [] }

/-- Database for the year-access scenario with an empty transcript:
year y2 follows y1, whose single term exam and cumulative review the
user passed, and no transcript entries exist. -/
def exYearDB : DB :=
  { terms := [⟨"t1", 1, "y1"⟩]
    years := [⟨"y1", 1⟩, ⟨"y2", 2⟩]
    assessments := [⟨"te1", some "t1", none, term_exam⟩,
      ⟨"cr1", none, some "y1", cumulative_review⟩]
    attempts := [⟨"u", "te1", true⟩, ⟨"u", "cr1", true⟩]
    weak_areas := []
    transcript_entries := [] }

/-- The year-access scenario with one passed module exam scored 68, so
the previous-year GPA is 68. -/
def exYearDB68 : DB :=
  { exYearDB with
    transcript_entries := [⟨"u", "y1", module_exam, 68, true⟩] }

/-! Helper lemmas. -/

/-- Evaluation helper for jsRound at concrete rationals. -/
lemma jsRound_eq_of (q : ℚ) (z : ℤ) (h1 : (z : ℚ) ≤ q + 1/2)
    (h2 : q + 1/2 < (z : ℚ) + 1) : jsRound q = z := by
  rw [jsRound]
  exact Int.floor_eq_iff.mpr ⟨h1, h2⟩

/-- Evaluation helper for round2 at concrete rationals. -/
lemma round2_eq_of (q : ℚ) (z : ℤ) (h1 : (z : ℚ) ≤ q * 100 + 1/2)
    (h2 : q * 100 + 1/2 < (z : ℚ) + 1) : round2 q = (z : ℚ) / 100 := by
  rw [round2, jsRound_eq_of (q * 100) z h1 h2]

/-- The computeGPA fold accumulates the specification sums. -/
lemma gpa_foldl (entries : List GradeEntry) (a b : ℚ) :
    entries.foldl
      (fun (p : ℚ × ℚ) e =>
        let w := gpaWeight e.assessment_type
        if w = 0 then p else (p.1 + e.score * w, p.2 + w))
      (a, b) =
    (a + specWeightedSum entries, b + specTotalWeight entries) := by
  induction entries generalizing a b with
  | nil => simp [specWeightedSum, specTotalWeight]
  | cons e rest ih =>
    simp only [List.foldl_cons]
    split_ifs with hw
    · rw [ih]
      simp only [specWeightedSum, specTotalWeight, List.map_cons,
        List.sum_cons, Prod.mk.injEq, hw]
      constructor <;> ring
    · rw [ih]
      simp only [specWeightedSum, specTotalWeight, List.map_cons,
        List.sum_cons, Prod.mk.injEq]
      constructor <;> ring

/-! Claim theorems. -/

/-- C6: computeGPA returns the weighted average with weights
module_exam 1.0, term_exam 2.0, cumulative_review 0.5 and
lesson_check 0, rounded to two decimals, and null exactly when the
total weight is zero; in particular the empty list gives null, a lone
module exam at 80 gives 80.00, and module 80 with term 90 gives
86.67. -/
theorem computeGPA_weighted_average (entries : List GradeEntry) :
    (computeGPA entries =
      if specTotalWeight entries = 0 then none
      else some (round2 (specWeightedSum entries / specTotalWeight entries)))
    ∧ gpaWeight .module_exam = 1 ∧ gpaWeight .term_exam = 2
    ∧ gpaWeight .cumulative_review = 1/2 ∧ gpaWeight .lesson_check = 0
    ∧ computeGPA [] = none
    ∧ computeGPA [⟨.module_exam, 80⟩] = some 80
    ∧ computeGPA [⟨.module_exam, 80⟩, ⟨.term_exam, 90⟩] = some (8667/100) := by
  refine ⟨?_, rfl, rfl, rfl, rfl, ?_, ?_, ?_⟩
  · rw [computeGPA]
    simp only [gpa_foldl, zero_add]
  · simp [computeGPA]
  · have h : computeGPA [⟨.module_exam, 80⟩] =
        some (round2 ((0 + 80 * 1) / (0 + 1))) := by
      norm_num [computeGPA, gpaWeight]
    rw [h, show ((0:ℚ) + 80 * 1) / (0 + 1) = 80 by norm_num,
      round2_eq_of 80 8000 (by norm_num) (by norm_num)]
    norm_num
  · have h : computeGPA [⟨.module_exam, 80⟩, ⟨.term_exam, 90⟩] =
        some (round2 ((0 + 80 * 1 + 90 * 2) / (0 + 1 + 2))) := by
      norm_num [computeGPA, gpaWeight]
    rw [h, show ((0:ℚ) + 80 * 1 + 90 * 2) / (0 + 1 + 2) = 260/3 by norm_num,
      round2_eq_of (260/3) 8667 (by norm_num) (by norm_num)]
    norm_num

/-- C8: the letter grade is the fixed partition A on 90 to 100, B on
80 to below 90, C on 70 to below 80, D on 60 to below 70, F below 60;
the tier thresholds default to 80, 75, 70, 70; and evaluateAssessment
marks passed exactly when the score reaches the tier threshold. -/
theorem grade_partition_and_thresholds (s : ℚ) (h0 : 0 ≤ s) (h100 : s ≤ 100)
    (sub : QuizSubmission) (t : AssessmentType) (qs : List Question)
    (ca aa : List (String × Answer)) (prev : List AssessmentAttempt)
    (now : ℤ) :
    ((calculateGrade s = .A ↔ 90 ≤ s)
      ∧ (calculateGrade s = .B ↔ 80 ≤ s ∧ s < 90)
      ∧ (calculateGrade s = .C ↔ 70 ≤ s ∧ s < 80)
      ∧ (calculateGrade s = .D ↔ 60 ≤ s ∧ s < 70)
      ∧ (calculateGrade s = .F ↔ s < 60))
    ∧ ASSESSMENT_THRESHOLDS .lesson_check = 80
    ∧ ASSESSMENT_THRESHOLDS .module_exam = 75
    ∧ ASSESSMENT_THRESHOLDS .term_exam = 70
    ∧ ASSESSMENT_THRESHOLDS .cumulative_review = 70
    ∧ (evaluateAssessment sub t qs ca aa prev now).passed =
        decide ((evaluateAssessment sub t qs ca aa prev now).score ≥
          ASSESSMENT_THRESHOLDS t) := by
  refine ⟨⟨?_, ?_, ?_, ?_, ?_⟩, rfl, rfl, rfl, rfl, rfl⟩ <;>
  · rw [calculateGrade]
    split_ifs <;> simp_all <;>
      first
        | linarith
        | (constructor <;> linarith)
        | (rintro h5 h6; linarith)
        | (intro h5; linarith)

/-- C8 witness: a score of 85 sits in the B band. -/
theorem grade_partition_and_thresholds_witness :
    (0:ℚ) ≤ 85 ∧ (85:ℚ) ≤ 100 ∧ calculateGrade 85 = .B :=
  ⟨by norm_num, by norm_num,
    ((grade_partition_and_thresholds 85 (by norm_num) (by norm_num)
      ⟨[]⟩ .lesson_check [] [] [] [] 0).1.2.1).mpr (by norm_num)⟩

/-- Projection of the evaluateQuiz score field. -/
lemma evaluateQuiz_score (sub : QuizSubmission) (qs : List Question)
    (ca aa : List (String × Answer)) :
    (evaluateQuiz sub qs ca aa).score =
      if qs.length > 0 then
        (jsRound (((gradeFold sub ca aa qs).1 : ℚ) / (qs.length : ℚ) * 10000) : ℚ) / 100
      else 0 := rfl

/-- Projection of the evaluateAssessment score field. -/
lemma evaluateAssessment_score (sub : QuizSubmission) (t : AssessmentType)
    (qs : List Question) (ca aa : List (String × Answer))
    (prev : List AssessmentAttempt) (now : ℤ) :
    (evaluateAssessment sub t qs ca aa prev now).score =
      if qs.length > 0 then
        (jsRound (((gradeFold sub ca aa qs).1 : ℚ) / (qs.length : ℚ) * 10000) : ℚ) / 100
      else 0 := rfl

/-- The code's score expression equals the two-decimal rounding of the
percentage. -/
lemma score_round2 (c len : ℕ) :
    (jsRound ((c : ℚ) / (len : ℚ) * 10000) : ℚ) / 100 =
      round2 ((c : ℚ) / (len : ℚ) * 100) := by
  rw [round2, show ((c : ℚ) / (len : ℚ) * 100) * 100 =
    (c : ℚ) / (len : ℚ) * 10000 by ring]

/-- C1: both grading functions report score = round(correct_count /
total_questions × 100) to two decimals when questions exist, and with
zero questions report score 0, passed false and empty feedback, with
no division error (the functions are total). -/
theorem grading_score_and_zero_questions (sub : QuizSubmission)
    (qs : List Question) (ca aa : List (String × Answer))
    (t : AssessmentType) (prev : List AssessmentAttempt) (now : ℤ) :
    ((evaluateQuiz sub qs ca aa).total_questions = qs.length)
    ∧ (qs.length > 0 → (evaluateQuiz sub qs ca aa).score =
        round2 (((evaluateQuiz sub qs ca aa).correct_count : ℚ) /
          (qs.length : ℚ) * 100))
    ∧ (qs.length = 0 → (evaluateQuiz sub qs ca aa).score = 0
        ∧ (evaluateQuiz sub qs ca aa).passed = false
        ∧ (evaluateQuiz sub qs ca aa).feedback = [])
    ∧ ((evaluateAssessment sub t qs ca aa prev now).total_questions = qs.length)
    ∧ (qs.length > 0 → (evaluateAssessment sub t qs ca aa prev now).score =
        round2 (((evaluateAssessment sub t qs ca aa prev now).correct_count : ℚ) /
          (qs.length : ℚ) * 100))
    ∧ (qs.length = 0 → (evaluateAssessment sub t qs ca aa prev now).score = 0
        ∧ (evaluateAssessment sub t qs ca aa prev now).passed = false
        ∧ (evaluateAssessment sub t qs ca aa prev now).feedback = []) := by
  refine ⟨rfl, ?_, ?_, rfl, ?_, ?_⟩
  · intro hlen
    rw [evaluateQuiz_score, if_pos hlen, score_round2]
    rfl
  · intro hlen
    rw [List.length_eq_zero] at hlen
    subst hlen
    refine ⟨rfl, ?_, rfl⟩
    show decide ((0 : ℚ) ≥ PASS_THRESHOLD) = false
    rw [decide_eq_false_iff_not]
    rw [PASS_THRESHOLD]
    norm_num
  · intro hlen
    rw [evaluateAssessment_score, if_pos hlen, score_round2]
    rfl
  · intro hlen
    rw [List.length_eq_zero] at hlen
    subst hlen
    refine ⟨rfl, ?_, rfl⟩
    show decide ((0 : ℚ) ≥ getPassThreshold t) = false
    rw [decide_eq_false_iff_not]
    cases t <;> rw [getPassThreshold, ASSESSMENT_THRESHOLDS] <;> norm_num

/-- C1 witness: a one-question quiz hits the positive branch and the
empty quiz hits the zero branch. -/
theorem grading_score_witness :
    ([exQ1].length > 0
      ∧ (evaluateQuiz exSub [exQ1] exCorrect exAll).score =
          round2 (((evaluateQuiz exSub [exQ1] exCorrect exAll).correct_count : ℚ) /
            (([exQ1] : List Question).length : ℚ) * 100))
    ∧ (([] : List Question).length = 0
      ∧ (evaluateAssessment exSub .term_exam [] exCorrect exAll [] exNow).score = 0
      ∧ (evaluateAssessment exSub .term_exam [] exCorrect exAll [] exNow).passed = false) :=
  ⟨⟨by decide,
    (grading_score_and_zero_questions exSub [exQ1] exCorrect exAll
      .term_exam [] exNow).2.1 (by decide)⟩,
   ⟨rfl,
    ((grading_score_and_zero_questions exSub [] exCorrect exAll
      .term_exam [] exNow).2.2.2.2.2 rfl).1,
    ((grading_score_and_zero_questions exSub [] exCorrect exAll
      .term_exam [] exNow).2.2.2.2.2 rfl).2.1⟩⟩

/-- A question with no correct-answer entry contributes nothing to the
grading fold. -/
lemma gradeFold_skip (sub : QuizSubmission) (ca aa : List (String × Answer))
    (qs1 qs2 : List Question) (q : Question) (h : mapGet ca q.id = none) :
    gradeFold sub ca aa (qs1 ++ q :: qs2) = gradeFold sub ca aa (qs1 ++ qs2) := by
  induction qs1 with
  | nil => simp [gradeFold, h]
  | cons a rest ih => simp [gradeFold, ih]

/-- A question with no correct-answer entry contributes nothing to the
incorrect-concept list. -/
lemma missTags_skip (sub : QuizSubmission) (ca : List (String × Answer))
    (qs1 qs2 : List Question) (q : Question) (h : mapGet ca q.id = none) :
    missTags sub ca (qs1 ++ q :: qs2) = missTags sub ca (qs1 ++ qs2) := by
  induction qs1 with
  | nil => simp [missTags, h]
  | cons a rest ih => simp [missTags, ih]

/-- C2 counterexample: with the two-question bank where q2 lacks a
correct-answer entry and q1 answered correctly, the skipped question
still counts toward total_questions and the score denominator: the
total is 2 and the score 50, while dropping q2 gives total 1 and
score 100 — refuting that a skipped question does not affect the
denominator. -/
theorem skipped_question_counterexample :
    (evaluateQuiz exSub [exQ1, exQ2] exCorrect exAll).total_questions = 2
    ∧ (evaluateQuiz exSub [exQ1, exQ2] exCorrect exAll).correct_count = 1
    ∧ (evaluateQuiz exSub [exQ1, exQ2] exCorrect exAll).score = 50
    ∧ (evaluateQuiz exSub [exQ1] exCorrect exAll).total_questions = 1
    ∧ (evaluateQuiz exSub [exQ1] exCorrect exAll).score = 100 := by
  have hg2 : (gradeFold exSub exCorrect exAll [exQ1, exQ2]).1 = 1 := by decide
  have hg1 : (gradeFold exSub exCorrect exAll [exQ1]).1 = 1 := by decide
  refine ⟨rfl, by decide, ?_, rfl, ?_⟩
  · rw [evaluateQuiz_score,
      if_pos (by decide : ([exQ1, exQ2] : List Question).length > 0), hg2,
      show ((1:ℕ):ℚ) / ((([exQ1, exQ2] : List Question).length : ℕ) : ℚ) * 10000 =
        5000 by norm_num,
      jsRound_eq_of 5000 5000 (by norm_num) (by norm_num)]
    norm_num
  · rw [evaluateQuiz_score,
      if_pos (by decide : ([exQ1] : List Question).length > 0), hg1,
      show ((1:ℕ):ℚ) / ((([exQ1] : List Question).length : ℕ) : ℚ) * 10000 =
        10000 by norm_num,
      jsRound_eq_of 10000 10000 (by norm_num) (by norm_num)]
    norm_num

/-- C2 amended: a question with no entry in the correct-answer lookup
is skipped from correct_count, feedback and the weak-concept list, and
the rest of the submission is evaluated normally, but it still counts
toward total_questions (and so toward the score denominator). -/
theorem skipped_question_spec (sub : QuizSubmission) (qs1 qs2 : List Question)
    (q : Question) (ca aa : List (String × Answer)) (t : AssessmentType)
    (prev : List AssessmentAttempt) (now : ℤ) (h : mapGet ca q.id = none) :
    (evaluateQuiz sub (qs1 ++ q :: qs2) ca aa).correct_count =
      (evaluateQuiz sub (qs1 ++ qs2) ca aa).correct_count
    ∧ (evaluateQuiz sub (qs1 ++ q :: qs2) ca aa).feedback =
        (evaluateQuiz sub (qs1 ++ qs2) ca aa).feedback
    ∧ (evaluateQuiz sub (qs1 ++ q :: qs2) ca aa).total_questions =
        (evaluateQuiz sub (qs1 ++ qs2) ca aa).total_questions + 1
    ∧ (evaluateAssessment sub t (qs1 ++ q :: qs2) ca aa prev now).correct_count =
        (evaluateAssessment sub t (qs1 ++ qs2) ca aa prev now).correct_count
    ∧ (evaluateAssessment sub t (qs1 ++ q :: qs2) ca aa prev now).feedback =
        (evaluateAssessment sub t (qs1 ++ qs2) ca aa prev now).feedback
    ∧ (evaluateAssessment sub t (qs1 ++ q :: qs2) ca aa prev now).weak_concepts =
        (evaluateAssessment sub t (qs1 ++ qs2) ca aa prev now).weak_concepts
    ∧ (evaluateAssessment sub t (qs1 ++ q :: qs2) ca aa prev now).total_questions =
        (evaluateAssessment sub t (qs1 ++ qs2) ca aa prev now).total_questions + 1 := by
  refine ⟨?_, ?_, ?_, ?_, ?_, ?_, ?_⟩
  · show (gradeFold sub ca aa (qs1 ++ q :: qs2)).1 =
      (gradeFold sub ca aa (qs1 ++ qs2)).1
    rw [gradeFold_skip sub ca aa qs1 qs2 q h]
  · show (gradeFold sub ca aa (qs1 ++ q :: qs2)).2 =
      (gradeFold sub ca aa (qs1 ++ qs2)).2
    rw [gradeFold_skip sub ca aa qs1 qs2 q h]
  · show (qs1 ++ q :: qs2).length = (qs1 ++ qs2).length + 1
    simp only [List.length_append, List.length_cons]
    omega
  · show (gradeFold sub ca aa (qs1 ++ q :: qs2)).1 =
      (gradeFold sub ca aa (qs1 ++ qs2)).1
    rw [gradeFold_skip sub ca aa qs1 qs2 q h]
  · show (gradeFold sub ca aa (qs1 ++ q :: qs2)).2 =
      (gradeFold sub ca aa (qs1 ++ qs2)).2
    rw [gradeFold_skip sub ca aa qs1 qs2 q h]
  · show dedup (missTags sub ca (qs1 ++ q :: qs2)) =
      dedup (missTags sub ca (qs1 ++ qs2))
    rw [missTags_skip sub ca qs1 qs2 q h]
  · show (qs1 ++ q :: qs2).length = (qs1 ++ qs2).length + 1
    simp only [List.length_append, List.length_cons]
    omega

/-- C2 amended witness: dropping q2 from the two-question example
leaves correct_count and feedback unchanged and lowers the total by
one. -/
theorem skipped_question_spec_witness :
    mapGet exCorrect exQ2.id = none
    ∧ (evaluateQuiz exSub [exQ1, exQ2] exCorrect exAll).correct_count =
        (evaluateQuiz exSub [exQ1] exCorrect exAll).correct_count
    ∧ (evaluateQuiz exSub [exQ1, exQ2] exCorrect exAll).total_questions =
        (evaluateQuiz exSub [exQ1] exCorrect exAll).total_questions + 1 :=
  ⟨by decide,
   (skipped_question_spec exSub [exQ1] [] exQ2 exCorrect exAll
     .module_exam [] exNow (by decide)).1,
   (skipped_question_spec exSub [exQ1] [] exQ2 exCorrect exAll
     .module_exam [] exNow (by decide)).2.2.1⟩

/-- The oldest-attempt reduce returns a member whose timestamp is
minimal. -/
lemma oldestAttempt_spec (h : AssessmentAttempt)
    (tl : List AssessmentAttempt) :
    oldestAttempt h tl ∈ h :: tl ∧
    ∀ b ∈ h :: tl, (oldestAttempt h tl).created_at ≤ b.created_at := by
  induction tl generalizing h with
  | nil =>
    constructor
    · simp [oldestAttempt]
    · intro b hb
      rcases List.mem_cons.mp hb with rfl | hb'
      · simp [oldestAttempt]
      · simp at hb'
  | cons a tl ih =>
    rw [oldestAttempt, List.foldl_cons]
    by_cases hc : a.created_at < h.created_at
    · rw [if_pos hc]
      have hfold : tl.foldl (fun o x => if x.created_at < o.created_at then x else o) a =
          oldestAttempt a tl := rfl
      rw [hfold]
      obtain ⟨hmem, hle⟩ := ih a
      constructor
      · rcases List.mem_cons.mp hmem with h1 | h1
        · rw [h1]
          exact List.mem_cons_of_mem _ (List.mem_cons_self _ _)
        · exact List.mem_cons_of_mem _ (List.mem_cons_of_mem _ h1)
      · intro b hb
        rcases List.mem_cons.mp hb with rfl | hb'
        · exact le_trans (hle a (List.mem_cons_self _ _)) (le_of_lt hc)
        · rcases List.mem_cons.mp hb' with rfl | hb2
          · exact hle b (List.mem_cons_self _ _)
          · exact hle b (List.mem_cons_of_mem _ hb2)
    · rw [if_neg hc]
      have hfold : tl.foldl (fun o x => if x.created_at < o.created_at then x else o) h =
          oldestAttempt h tl := rfl
      rw [hfold]
      obtain ⟨hmem, hle⟩ := ih h
      constructor
      · rcases List.mem_cons.mp hmem with h1 | h1
        · rw [h1]
          exact List.mem_cons_self _ _
        · exact List.mem_cons_of_mem _ (List.mem_cons_of_mem _ h1)
      · intro b hb
        rcases List.mem_cons.mp hb with rfl | hb'
        · exact hle b (List.mem_cons_self _ _)
        · rcases List.mem_cons.mp hb' with rfl | hb2
          · exact le_trans (hle h (List.mem_cons_self _ _)) (not_lt.mp hc)
          · exact hle b (List.mem_cons_of_mem _ hb2)

/-- The latest-attempt reduce returns a member whose timestamp is
maximal. -/
lemma latestAttempt_spec (h : AssessmentAttempt)
    (tl : List AssessmentAttempt) :
    latestAttempt h tl ∈ h :: tl ∧
    ∀ b ∈ h :: tl, b.created_at ≤ (latestAttempt h tl).created_at := by
  induction tl generalizing h with
  | nil =>
    constructor
    · simp [latestAttempt]
    · intro b hb
      rcases List.mem_cons.mp hb with rfl | hb'
      · simp [latestAttempt]
      · simp at hb'
  | cons a tl ih =>
    rw [latestAttempt, List.foldl_cons]
    by_cases hc : a.created_at > h.created_at
    · rw [if_pos hc]
      have hfold : tl.foldl (fun l x => if x.created_at > l.created_at then x else l) a =
          latestAttempt a tl := rfl
      rw [hfold]
      obtain ⟨hmem, hle⟩ := ih a
      constructor
      · rcases List.mem_cons.mp hmem with h1 | h1
        · rw [h1]
          exact List.mem_cons_of_mem _ (List.mem_cons_self _ _)
        · exact List.mem_cons_of_mem _ (List.mem_cons_of_mem _ h1)
      · intro b hb
        rcases List.mem_cons.mp hb with rfl | hb'
        · exact le_trans (le_of_lt hc) (hle a (List.mem_cons_self _ _))
        · rcases List.mem_cons.mp hb' with rfl | hb2
          · exact hle b (List.mem_cons_self _ _)
          · exact hle b (List.mem_cons_of_mem _ hb2)
    · rw [if_neg hc]
      have hfold : tl.foldl (fun l x => if x.created_at > l.created_at then x else l) h =
          latestAttempt h tl := rfl
      rw [hfold]
      obtain ⟨hmem, hle⟩ := ih h
      constructor
      · rcases List.mem_cons.mp hmem with h1 | h1
        · rw [h1]
          exact List.mem_cons_self _ _
        · exact List.mem_cons_of_mem _ (List.mem_cons_of_mem _ h1)
      · intro b hb
        rcases List.mem_cons.mp hb with rfl | hb'
        · exact hle b (List.mem_cons_self _ _)
        · rcases List.mem_cons.mp hb' with rfl | hb2
          · exact le_trans (not_lt.mp hc) (hle h (List.mem_cons_self _ _))
          · exact hle b (List.mem_cons_of_mem _ hb2)

/-- Unfolding equation for checkRetryEligibility in terms of the named
window and reduce operations. -/
lemma checkRetryEligibility_eq (t : AssessmentType)
    (prev : List AssessmentAttempt) (now : ℤ) :
    checkRetryEligibility t prev now =
      (if (recentOf t prev now).length ≥ (MAX_ATTEMPTS t).count then
        match recentOf t prev now with
        | [] => { canRetry := true, nextRetryAt := none }
        | h :: tl =>
          { canRetry := false
            nextRetryAt := some ((oldestAttempt h tl).created_at + periodMs t) }
      else
        match prev with
        | [] => { canRetry := true, nextRetryAt := none }
        | h :: tl =>
          if cooldownMsOf t > 0 then
            if now < (latestAttempt h tl).created_at + cooldownMsOf t then
              { canRetry := false
                nextRetryAt := some ((latestAttempt h tl).created_at + cooldownMsOf t) }
            else { canRetry := true, nextRetryAt := none }
          else { canRetry := true, nextRetryAt := none }) := rfl

/-- Every tier permits at least one attempt per period. -/
lemma max_attempts_pos (t : AssessmentType) : 0 < (MAX_ATTEMPTS t).count := by
  cases t <;> decide

/-- C3: checkRetryEligibility follows the spec algorithm with the tier
policy table (3 per 1 day cooldown 0, 3 per 7 days cooldown 24h, 2 per
14 days cooldown 48h, 3 per 7 days cooldown 24h): at or over the limit
it denies with next-eligible = oldest recent attempt + period;
otherwise with a positive cooldown and any prior attempt it denies
until the latest attempt + cooldown; otherwise it allows with no
next-eligible time. -/
theorem checkRetryEligibility_full_spec (t : AssessmentType)
    (prev : List AssessmentAttempt) (now : ℤ) :
    (MAX_ATTEMPTS .lesson_check = ⟨3, 1⟩ ∧ MAX_ATTEMPTS .module_exam = ⟨3, 7⟩
      ∧ MAX_ATTEMPTS .term_exam = ⟨2, 14⟩
      ∧ MAX_ATTEMPTS .cumulative_review = ⟨3, 7⟩
      ∧ COOLDOWN_HOURS .lesson_check = 0 ∧ COOLDOWN_HOURS .module_exam = 24
      ∧ COOLDOWN_HOURS .term_exam = 48 ∧ COOLDOWN_HOURS .cumulative_review = 24)
    ∧ ((recentOf t prev now).length ≥ (MAX_ATTEMPTS t).count →
        ∃ a ∈ recentOf t prev now,
          (∀ b ∈ recentOf t prev now, a.created_at ≤ b.created_at) ∧
          checkRetryEligibility t prev now =
            { canRetry := false, nextRetryAt := some (a.created_at + periodMs t) })
    ∧ ((recentOf t prev now).length < (MAX_ATTEMPTS t).count →
        cooldownMsOf t > 0 → prev ≠ [] →
        ∃ m ∈ prev, (∀ b ∈ prev, b.created_at ≤ m.created_at) ∧
          ((now < m.created_at + cooldownMsOf t →
            checkRetryEligibility t prev now =
              { canRetry := false
                nextRetryAt := some (m.created_at + cooldownMsOf t) })
          ∧ (m.created_at + cooldownMsOf t ≤ now →
            checkRetryEligibility t prev now =
              { canRetry := true, nextRetryAt := none })))
    ∧ ((recentOf t prev now).length < (MAX_ATTEMPTS t).count →
        (cooldownMsOf t = 0 ∨ prev = []) →
        checkRetryEligibility t prev now =
          { canRetry := true, nextRetryAt := none }) := by
  refine ⟨⟨rfl, rfl, rfl, rfl, rfl, rfl, rfl, rfl⟩, ?_, ?_, ?_⟩
  · intro hcount
    rcases hrec : recentOf t prev now with _ | ⟨h, tl⟩
    · exfalso
      rw [hrec] at hcount
      have := max_attempts_pos t
      simp at hcount
      omega
    · obtain ⟨hmem, hle⟩ := oldestAttempt_spec h tl
      refine ⟨oldestAttempt h tl, hmem, hle, ?_⟩
      rw [checkRetryEligibility_eq, if_pos hcount, hrec]
  · intro hcount hcool hne
    cases prev with
    | nil => exact absurd rfl hne
    | cons h tl =>
      obtain ⟨hmem, hle⟩ := latestAttempt_spec h tl
      have heq : checkRetryEligibility t (h :: tl) now =
          if cooldownMsOf t > 0 then
            if now < (latestAttempt h tl).created_at + cooldownMsOf t then
              { canRetry := false
                nextRetryAt := some ((latestAttempt h tl).created_at + cooldownMsOf t) }
            else { canRetry := true, nextRetryAt := none }
          else { canRetry := true, nextRetryAt := none } := by
        rw [checkRetryEligibility_eq, if_neg (not_le.mpr hcount)]
      refine ⟨latestAttempt h tl, hmem, hle, ?_, ?_⟩
      · intro hlt
        rw [heq, if_pos hcool, if_pos hlt]
      · intro hge
        rw [heq, if_pos hcool, if_neg (not_lt.mpr hge)]
  · intro hcount hc
    rcases hc with hc | hc
    · cases prev with
      | nil => rw [checkRetryEligibility_eq, if_neg (not_le.mpr hcount)]
      | cons h tl =>
        have heq : checkRetryEligibility t (h :: tl) now =
            if cooldownMsOf t > 0 then
              if now < (latestAttempt h tl).created_at + cooldownMsOf t then
                { canRetry := false
                  nextRetryAt := some ((latestAttempt h tl).created_at + cooldownMsOf t) }
              else { canRetry := true, nextRetryAt := none }
            else { canRetry := true, nextRetryAt := none } := by
          rw [checkRetryEligibility_eq, if_neg (not_le.mpr hcount)]
        rw [heq, if_neg (by rw [hc]; exact lt_irrefl 0)]
    · subst hc
      rw [checkRetryEligibility_eq, if_neg (not_le.mpr hcount)]

/-- C3 witness: a term exam with one attempt ten hours before now is
inside the 48-hour cooldown, so the retry is denied until that attempt
plus 48 hours. -/
theorem checkRetryEligibility_witness :
    (recentOf .term_exam exAttempts exNow).length < (MAX_ATTEMPTS .term_exam).count
    ∧ cooldownMsOf .term_exam > 0 ∧ exAttempts ≠ []
    ∧ checkRetryEligibility .term_exam exAttempts exNow =
        { canRetry := false, nextRetryAt := some 1700136800000 } := by
  refine ⟨by decide, by decide, by decide, ?_⟩
  obtain ⟨m, hm, hle, himp⟩ :=
    (checkRetryEligibility_full_spec .term_exam exAttempts exNow).2.2.1
      (by decide) (by decide) (by decide)
  have hmeq : m = ⟨1699964000000⟩ := by
    simp [exAttempts] at hm
    exact hm
  rw [hmeq] at himp
  exact himp.1 (by decide)

/-- Membership through insertUnique. -/
lemma mem_insertUnique (acc : List String) (x a : String) :
    a ∈ insertUnique acc x ↔ a ∈ acc ∨ a = x := by
  rw [insertUnique]
  split_ifs with h
  · constructor
    · exact Or.inl
    · rintro (h1 | rfl)
      · exact h1
      · exact h
  · simp [List.mem_append]

/-- insertUnique preserves distinctness. -/
lemma nodup_insertUnique (acc : List String) (x : String) (h : acc.Nodup) :
    (insertUnique acc x).Nodup := by
  rw [insertUnique]
  split_ifs with hx
  · exact h
  · simp [List.nodup_append, h, hx]

/-- Membership through the dedup fold. -/
lemma mem_foldl_insertUnique (l : List String) (acc : List String) (a : String) :
    a ∈ l.foldl insertUnique acc ↔ a ∈ acc ∨ a ∈ l := by
  induction l generalizing acc with
  | nil => simp
  | cons x l ih =>
    rw [List.foldl_cons, ih, mem_insertUnique]
    simp [List.mem_cons]
    tauto

/-- The dedup fold preserves distinctness. -/
lemma nodup_foldl_insertUnique (l : List String) (acc : List String)
    (h : acc.Nodup) : (l.foldl insertUnique acc).Nodup := by
  induction l generalizing acc with
  | nil => exact h
  | cons x l ih => exact ih _ (nodup_insertUnique acc x h)

/-- dedup keeps exactly the members. -/
lemma mem_dedup (l : List String) (a : String) : a ∈ dedup l ↔ a ∈ l := by
  rw [dedup, mem_foldl_insertUnique]
  simp

/-- dedup yields distinct tags. -/
lemma dedup_nodup (l : List String) : (dedup l).Nodup :=
  nodup_foldl_insertUnique l [] List.nodup_nil

/-- Effect of the updateWeakAreas loop over a distinct tag list: the
looped tags get old count plus this call's miss count and a refreshed
timestamp; other tags are untouched. -/
lemma ledger_foldl (misses : List ConceptMiss) (now : ℤ) (L : List String)
    (st : Ledger) (tag : String) (hnd : L.Nodup) :
    (L.foldl (ledgerStep misses now) st) tag =
      if tag ∈ L then
        some ⟨((st tag).map (fun r => r.error_count)).getD 0 +
          (misses.filter (fun c => decide (c.concept_tag = tag))).length, now⟩
      else st tag := by
  induction L generalizing st with
  | nil => simp
  | cons a L ih =>
    obtain ⟨ha, hL⟩ := List.nodup_cons.mp hnd
    rw [List.foldl_cons, ih _ hL]
    by_cases htag : tag = a
    · subst htag
      rw [if_neg (fun hmem => ha hmem), if_pos (List.mem_cons_self _ _)]
      cases hst : st tag with
      | some r => simp [ledgerStep, hst]
      | none => simp [ledgerStep, hst]
    · have hstep : (ledgerStep misses now st a) tag = st tag := by
        cases hst : st a <;> simp [ledgerStep, hst, htag]
      rw [hstep]
      simp only [List.mem_cons, htag, false_or]

/-- C7: updateWeakAreas touches each distinct missed concept tag
exactly once, adding exactly this call's per-tag miss count to the
existing error_count (or creating the row at that count) and
refreshing last_tested_at, leaves every other tag untouched, and never
decreases a count. -/
theorem updateWeakAreas_full_spec (misses : List ConceptMiss) (now : ℤ)
    (st : Ledger) (tag : String) :
    (updateWeakAreas misses now st tag =
      if tag ∈ misses.map (fun c => c.concept_tag) then
        some ⟨((st tag).map (fun r => r.error_count)).getD 0 +
          (misses.filter (fun c => decide (c.concept_tag = tag))).length, now⟩
      else st tag)
    ∧ ((st tag).map (fun r => r.error_count)).getD 0 ≤
        ((updateWeakAreas misses now st tag).map (fun r => r.error_count)).getD 0 := by
  have hmain : updateWeakAreas misses now st tag =
      if tag ∈ misses.map (fun c => c.concept_tag) then
        some ⟨((st tag).map (fun r => r.error_count)).getD 0 +
          (misses.filter (fun c => decide (c.concept_tag = tag))).length, now⟩
      else st tag := by
    by_cases hlen : misses = []
    · subst hlen
      rw [updateWeakAreas]
      simp
    · rw [updateWeakAreas,
        if_neg (fun h => hlen (List.length_eq_zero.mp h)),
        ledger_foldl misses now _ st tag (dedup_nodup _)]
      simp only [mem_dedup]
  refine ⟨hmain, ?_⟩
  rw [hmain]
  split_ifs with hmem
  · simp
  · exact le_refl _

/-- C9: the required-review list holds exactly the concept tags with
error_count at least 3 (the review threshold), and the dashboard flags
a listed concept as blocking exactly when its error_count is at
least 5. -/
theorem requiredReviews_and_blocking (rows : List WeakArea) (w : WeakArea)
    (tag : String) :
    (tag ∈ getRequiredReviews rows ↔
      ∃ r ∈ rows, r.concept_tag = tag ∧ r.error_count ≥ 3)
    ∧ (w ∈ dashboardRequiredReviews rows ↔ w ∈ rows ∧ w.error_count ≥ 3)
    ∧ (dashboardBlockingFlag w = true ↔ w.error_count ≥ 5)
    ∧ REVIEW_THRESHOLD = 3 := by
  refine ⟨?_, ?_, ?_, rfl⟩
  · simp only [getRequiredReviews, REVIEW_THRESHOLD, List.mem_map,
      List.mem_filter, decide_eq_true_eq]
    constructor
    · rintro ⟨r, ⟨hr, hc⟩, he⟩
      exact ⟨r, hr, he, hc⟩
    · rintro ⟨r, hr, he, hc⟩
      exact ⟨r, ⟨hr, hc⟩, he⟩
  · simp [dashboardRequiredReviews, List.mem_filter]
  · simp [dashboardBlockingFlag]

/-- Reduction of canAccessTerm once the term and previous term are
resolved and the term is not the first. -/
lemma canAccessTerm_reduces (db : DB) (user termId : String)
    (term prevTerm : TermRow)
    (hterm : single (db.terms.filter (fun t => decide (t.id = termId))) =
      some term)
    (horder : term.order ≠ 1)
    (hprev : single (db.terms.filter
      (fun t => decide (t.order = term.order - 1))) = some prevTerm) :
    canAccessTerm db user termId =
      match findTermExam db prevTerm.id with
      | some termExam =>
        match findPassingAttempt db user termExam.id with
        | none => { accessible := false, reason := some termExamReason }
        | some _ => termWeakAreaCheck db user
      | none => termWeakAreaCheck db user := by
  simp only [canAccessTerm, hterm]
  rw [if_neg horder]
  simp only [hprev]

/-- Characterization of the weak-area tail of canAccessTerm. -/
lemma termWeakAreaCheck_spec (db : DB) (user : String) :
    (blockingRows db user ≠ [] →
      termWeakAreaCheck db user =
        { accessible := false
          reason := some (weakAreaReason (String.intercalate ", "
            ((blockingRows db user).map (fun w => w.concept_tag)))) })
    ∧ (blockingRows db user = [] →
      termWeakAreaCheck db user = { accessible := true, reason := none }) := by
  constructor
  · intro hne
    rw [termWeakAreaCheck]
    rw [if_pos (List.length_pos.mpr hne)]
  · intro he
    rw [termWeakAreaCheck]
    have hlen : (blockingRows db user).length = 0 := by
      rw [he]
      rfl
    rw [if_neg (by omega)]

/-- C4: with the previous-term exam requirement met, a later term is
inaccessible exactly when the user has a weak-area row with
error_count at least 3, the failure reason naming every offending
concept tag; with no such row the term is accessible, so a passed
prerequisite exam never overrides the weak-area block. -/
theorem canAccessTerm_weak_area_gate (db : DB) (user termId : String)
    (term prevTerm : TermRow)
    (hterm : single (db.terms.filter (fun t => decide (t.id = termId))) =
      some term)
    (horder : 1 < term.order)
    (hprev : single (db.terms.filter
      (fun t => decide (t.order = term.order - 1))) = some prevTerm)
    (hexam : prevExamRequirementMet db user prevTerm.id = true) :
    (blockingRows db user ≠ [] →
      canAccessTerm db user termId =
        { accessible := false
          reason := some (weakAreaReason (String.intercalate ", "
            ((blockingRows db user).map (fun w => w.concept_tag)))) })
    ∧ (blockingRows db user = [] →
      canAccessTerm db user termId = { accessible := true, reason := none }) := by
  have hne1 : term.order ≠ 1 := by
    intro h
    rw [h] at horder
    exact lt_irrefl 1 horder
  have hred := canAccessTerm_reduces db user termId term prevTerm hterm hne1 hprev
  have hgate : canAccessTerm db user termId = termWeakAreaCheck db user := by
    rcases hfe : findTermExam db prevTerm.id with _ | e
    · rw [hred, hfe]
    · rw [prevExamRequirementMet, hfe] at hexam
      have hsome : (findPassingAttempt db user e.id).isSome = true := by
        simpa using hexam
      obtain ⟨att, hatt⟩ := Option.isSome_iff_exists.mp hsome
      rw [hred]
      simp only [hfe, hatt]
  rw [hgate]
  exact termWeakAreaCheck_spec db user

/-- C4 witness: in the term scenario the user passed the previous
term exam but carries the weak-area row centers at error_count 3, so
term t2 stays blocked with centers named in the reason. -/
theorem canAccessTerm_weak_area_witness :
    1 < (2 : ℤ)
    ∧ prevExamRequirementMet exTermDB "u" "t1" = true
    ∧ blockingRows exTermDB "u" ≠ []
    ∧ canAccessTerm exTermDB "u" "t2" =
        { accessible := false
          reason := some "The following concepts require targeted review before progression: centers." } := by
  refine ⟨by decide, by decide, by decide, ?_⟩
  have h := (canAccessTerm_weak_area_gate exTermDB "u" "t2" ⟨"t2", 2, "y1"⟩
    ⟨"t1", 1, "y1"⟩ (by decide) (by decide) (by decide) (by decide)).1 (by decide)
  rw [h]
  decide

/-- The term-exam loop returns nothing exactly when every term of the
list meets the exam requirement. -/
lemma checkPrevTermExams_none_iff (db : DB) (user : String)
    (l : List TermRow) :
    checkPrevTermExams db user l = none ↔
      allPrevTermExamsPassed db user l = true := by
  induction l with
  | nil => simp [checkPrevTermExams, allPrevTermExamsPassed]
  | cons t rest ih =>
    rw [allPrevTermExamsPassed, List.all_cons, Bool.and_eq_true]
    rw [allPrevTermExamsPassed] at ih
    rcases hfe : findTermExam db t.id with _ | e
    · have hpe : prevExamRequirementMet db user t.id = true := by
        simp [prevExamRequirementMet, hfe]
      simp only [checkPrevTermExams, hfe]
      simp [hpe, ih]
    · rcases hpa : findPassingAttempt db user e.id with _ | att
      · have hpe : prevExamRequirementMet db user t.id = false := by
          simp [prevExamRequirementMet, hfe, hpa]
        simp only [checkPrevTermExams, hfe, hpa]
        simp [hpe]
      · have hpe : prevExamRequirementMet db user t.id = true := by
          simp [prevExamRequirementMet, hfe, hpa]
        simp only [checkPrevTermExams, hfe, hpa]
        simp [hpe, ih]

/-- A failing term-exam loop returns the fixed failure result. -/
lemma checkPrevTermExams_some (db : DB) (user : String) (l : List TermRow)
    (r : AccessResult) (h : checkPrevTermExams db user l = some r) :
    r = { accessible := false, reason := some yearTermExamReason } := by
  induction l with
  | nil => simp [checkPrevTermExams] at h
  | cons t rest ih =>
    rcases hfe : findTermExam db t.id with _ | e
    · rw [checkPrevTermExams] at h
      simp only [hfe] at h
      exact ih h
    · rcases hpa : findPassingAttempt db user e.id with _ | att
      · rw [checkPrevTermExams] at h
        simp only [hfe, hpa, Option.some.injEq] at h
        exact h.symm
      · rw [checkPrevTermExams] at h
        simp only [hfe, hpa] at h
        exact ih h

/-- A fold adding mapped values equals the initial value plus the
mapped sum. -/
lemma foldl_add_map (f : TranscriptRow → ℚ) (l : List TranscriptRow)
    (a : ℚ) : l.foldl (fun s e => s + f e) a = a + (l.map f).sum := by
  induction l generalizing a with
  | nil => simp
  | cons e rest ih =>
    rw [List.foldl_cons, ih, List.map_cons, List.sum_cons]
    ring

/-- Every transcript weight is positive. -/
lemma yearEntryWeight_pos (e : TranscriptRow) : 0 < yearEntryWeight e := by
  rw [yearEntryWeight]
  split_ifs <;> norm_num

/-- A non-empty entry list has positive total weight. -/
lemma sum_weights_pos (l : List TranscriptRow) (h : l ≠ []) :
    0 < (l.map yearEntryWeight).sum := by
  cases l with
  | nil => exact absurd rfl h
  | cons e rest =>
    rw [List.map_cons, List.sum_cons]
    have h1 : 0 ≤ (rest.map yearEntryWeight).sum :=
      List.sum_nonneg (by
        intro x hx
        obtain ⟨y, _, rfl⟩ := List.mem_map.mp hx
        exact le_of_lt (yearEntryWeight_pos y))
    have h2 := yearEntryWeight_pos e
    linarith

/-- The GPA tail on an empty entry list allows access. -/
lemma yearGpaCheck_nil : yearGpaCheck [] = { accessible := true, reason := none } := by
  rw [yearGpaCheck]
  simp

/-- The GPA tail on a non-empty entry list compares the unrounded
weighted average with 70. -/
lemma yearGpaCheck_eq (entries : List TranscriptRow) (h : entries ≠ []) :
    yearGpaCheck entries =
      if specYearGPA entries < 70 then
        { accessible := false
          reason := some (gpaReason (jsRound (specYearGPA entries))) }
      else { accessible := true, reason := none } := by
  rw [yearGpaCheck, if_pos (List.length_pos.mpr h)]
  simp only [foldl_add_map, zero_add]
  rw [if_pos (sum_weights_pos entries h)]
  rw [specYearGPA]

/-- Reduction of canAccessYear once the year and previous year are
resolved and the year is not the first. -/
lemma canAccessYear_reduces (db : DB) (user yearId : String)
    (year prevYear : YearRow)
    (hyear : single (db.years.filter (fun y => decide (y.id = yearId))) =
      some year)
    (horder : year.order ≠ 1)
    (hprev : single (db.years.filter
      (fun y => decide (y.order = year.order - 1))) = some prevYear) :
    canAccessYear db user yearId = yearPrevYearStage db user prevYear := by
  simp only [canAccessYear, hyear]
  rw [if_neg horder]
  simp only [hprev]

/-- Reduction of canAccessYear to the term-exam loop and its tail when
the previous year has terms. -/
lemma canAccessYear_stage (db : DB) (user yearId : String)
    (year prevYear : YearRow)
    (hyear : single (db.years.filter (fun y => decide (y.id = yearId))) =
      some year)
    (horder : year.order ≠ 1)
    (hprev : single (db.years.filter
      (fun y => decide (y.order = year.order - 1))) = some prevYear)
    (hterms : db.terms.filter (fun t => decide (t.year_id = prevYear.id)) ≠ []) :
    canAccessYear db user yearId =
      match checkPrevTermExams db user
          (db.terms.filter (fun t => decide (t.year_id = prevYear.id))) with
      | some r => r
      | none => yearCumulativeStage db user prevYear := by
  rw [canAccessYear_reduces db user yearId year prevYear hyear horder hprev,
    yearPrevYearStage]
  rw [if_neg (fun h => hterms (List.length_eq_zero.mp h))]

/-- The cumulative stage reduces to the GPA check when the requirement
is met. -/
lemma yearCumulativeStage_passed (db : DB) (user : String)
    (prevYear : YearRow)
    (hcum : cumulativeReviewPassed db user prevYear.id = true) :
    yearCumulativeStage db user prevYear =
      yearGpaCheck (yearTranscript db user prevYear.id) := by
  rcases hcr : findCumulativeReview db prevYear.id with _ | review
  · rw [yearCumulativeStage]
    simp only [hcr]
  · rw [cumulativeReviewPassed] at hcum
    simp only [hcr] at hcum
    obtain ⟨att, hatt⟩ := Option.isSome_iff_exists.mp hcum
    rw [yearCumulativeStage]
    simp only [hcr, hatt]

/-- The cumulative stage denies access on an unpassed review. -/
lemma yearCumulativeStage_failed (db : DB) (user : String)
    (prevYear : YearRow) (review : AssessmentRow)
    (hcr : findCumulativeReview db prevYear.id = some review)
    (hpa : findPassingAttempt db user review.id = none) :
    yearCumulativeStage db user prevYear =
      { accessible := false, reason := some cumulativeReviewReason } := by
  rw [yearCumulativeStage]
  simp only [hcr, hpa]

/-- Case analysis of the GPA tail shared by the year-gate proofs. -/
lemma canAccessYear_gpa_tail (db : DB) (user yearId : String)
    (prevYear : YearRow)
    (hall : allPrevTermExamsPassed db user
      (db.terms.filter (fun t => decide (t.year_id = prevYear.id))) = true)
    (hcum : cumulativeReviewPassed db user prevYear.id = true)
    (hstage : canAccessYear db user yearId =
      yearGpaCheck (yearTranscript db user prevYear.id)) :
    ((canAccessYear db user yearId).accessible = true ↔
      (allPrevTermExamsPassed db user
          (db.terms.filter (fun t => decide (t.year_id = prevYear.id))) = true
        ∧ cumulativeReviewPassed db user prevYear.id = true
        ∧ (yearTranscript db user prevYear.id ≠ [] →
            70 ≤ specYearGPA (yearTranscript db user prevYear.id))))
    ∧ (allPrevTermExamsPassed db user
          (db.terms.filter (fun t => decide (t.year_id = prevYear.id))) = true →
        cumulativeReviewPassed db user prevYear.id = true →
        yearTranscript db user prevYear.id ≠ [] →
        specYearGPA (yearTranscript db user prevYear.id) < 70 →
        canAccessYear db user yearId =
          { accessible := false
            reason := some (gpaReason (jsRound
              (specYearGPA (yearTranscript db user prevYear.id)))) }) := by
  by_cases hemp : yearTranscript db user prevYear.id = []
  · rw [hemp, yearGpaCheck_nil] at hstage
    constructor
    · rw [hstage]
      simp [hall, hcum, hemp]
    · intro h1 h2 hne h4
      exact absurd hemp hne
  · rw [yearGpaCheck_eq _ hemp] at hstage
    by_cases hgpa : specYearGPA (yearTranscript db user prevYear.id) < 70
    · rw [if_pos hgpa] at hstage
      constructor
      · rw [hstage]
        simp [hall, hcum, hemp, not_le.mpr hgpa]
      · intro h1 h2 h3 h4
        exact hstage
    · rw [if_neg hgpa] at hstage
      constructor
      · rw [hstage]
        simp only [hall, hcum, true_and]
        constructor
        · intro h1
          intro h2
          exact not_lt.mp hgpa
        · intro h1
          trivial
      · intro h1 h2 h3 hlt
        exact absurd hlt hgpa

/-- C5 amended: for a later year whose previous year is resolved, the
gate grants access exactly when every previous-year term exam is
passed, the cumulative review (where defined) is passed, and — only
when at least one qualifying transcript entry exists — the weighted
previous-year GPA is at least 70; when entries exist and the GPA falls
below 70 the gate denies with the reason citing the minimum of 70
(the rendered value being Math.round of the GPA). -/
theorem canAccessYear_gpa_gate (db : DB) (user yearId : String)
    (year prevYear : YearRow)
    (hyear : single (db.years.filter (fun y => decide (y.id = yearId))) =
      some year)
    (horder : 1 < year.order)
    (hprev : single (db.years.filter
      (fun y => decide (y.order = year.order - 1))) = some prevYear)
    (hterms : db.terms.filter (fun t => decide (t.year_id = prevYear.id)) ≠ []) :
    ((canAccessYear db user yearId).accessible = true ↔
      (allPrevTermExamsPassed db user
          (db.terms.filter (fun t => decide (t.year_id = prevYear.id))) = true
        ∧ cumulativeReviewPassed db user prevYear.id = true
        ∧ (yearTranscript db user prevYear.id ≠ [] →
            70 ≤ specYearGPA (yearTranscript db user prevYear.id))))
    ∧ (allPrevTermExamsPassed db user
          (db.terms.filter (fun t => decide (t.year_id = prevYear.id))) = true →
        cumulativeReviewPassed db user prevYear.id = true →
        yearTranscript db user prevYear.id ≠ [] →
        specYearGPA (yearTranscript db user prevYear.id) < 70 →
        canAccessYear db user yearId =
          { accessible := false
            reason := some (gpaReason (jsRound
              (specYearGPA (yearTranscript db user prevYear.id)))) }) := by
  have hne1 : year.order ≠ 1 := by
    intro h
    rw [h] at horder
    exact lt_irrefl 1 horder
  have hstage0 := canAccessYear_stage db user yearId year prevYear hyear hne1
    hprev hterms
  rcases hcte : checkPrevTermExams db user
      (db.terms.filter (fun t => decide (t.year_id = prevYear.id))) with _ | r
  · have hall : allPrevTermExamsPassed db user
        (db.terms.filter (fun t => decide (t.year_id = prevYear.id))) = true :=
      (checkPrevTermExams_none_iff db user _).mp hcte
    have hstage1 : canAccessYear db user yearId =
        yearCumulativeStage db user prevYear := by
      rw [hstage0]
      simp only [hcte]
    by_cases hcum : cumulativeReviewPassed db user prevYear.id = true
    · exact canAccessYear_gpa_tail db user yearId prevYear hall hcum
        (hstage1.trans (yearCumulativeStage_passed db user prevYear hcum))
    · have hcumf : cumulativeReviewPassed db user prevYear.id = false := by
        cases h : cumulativeReviewPassed db user prevYear.id
        · rfl
        · exact absurd h hcum
      rcases hcr : findCumulativeReview db prevYear.id with _ | review
      · exact absurd (by simp [cumulativeReviewPassed, hcr]) hcum
      · rcases hpa : findPassingAttempt db user review.id with _ | att
        · have hstage2 := hstage1.trans
            (yearCumulativeStage_failed db user prevYear review hcr hpa)
          constructor
          · rw [hstage2]
            simp [hcumf]
          · intro h1 h2 h3 h4
            rw [hcumf] at h2
            cases h2
        · exact absurd (by simp [cumulativeReviewPassed, hcr, hpa]) hcum
  · have hfail := checkPrevTermExams_some db user _ r hcte
    have hallf : allPrevTermExamsPassed db user
        (db.terms.filter (fun t => decide (t.year_id = prevYear.id))) = false := by
      cases h : allPrevTermExamsPassed db user
          (db.terms.filter (fun t => decide (t.year_id = prevYear.id)))
      · rfl
      · exfalso
        have := (checkPrevTermExams_none_iff db user _).mpr h
        rw [hcte] at this
        cases this
    have hstage1 : canAccessYear db user yearId = r := by
      rw [hstage0]
      simp only [hcte]
    rw [hfail] at hstage1
    constructor
    · rw [hstage1]
      simp [hallf]
    · intro h1
      rw [hallf] at h1
      cases h1

/-- C10: with every previous-year term exam passed and the cumulative
review passed, an empty qualifying-transcript list makes canAccessYear
skip the GPA requirement and grant access. -/
theorem canAccessYear_skips_absent_gpa (db : DB) (user yearId : String)
    (year prevYear : YearRow)
    (hyear : single (db.years.filter (fun y => decide (y.id = yearId))) =
      some year)
    (horder : 1 < year.order)
    (hprev : single (db.years.filter
      (fun y => decide (y.order = year.order - 1))) = some prevYear)
    (hterms : db.terms.filter (fun t => decide (t.year_id = prevYear.id)) ≠ [])
    (hall : allPrevTermExamsPassed db user
      (db.terms.filter (fun t => decide (t.year_id = prevYear.id))) = true)
    (hcum : cumulativeReviewPassed db user prevYear.id = true)
    (hempty : yearTranscript db user prevYear.id = []) :
    canAccessYear db user yearId = { accessible := true, reason := none } := by
  have hne1 : year.order ≠ 1 := by
    intro h
    rw [h] at horder
    exact lt_irrefl 1 horder
  have hstage0 := canAccessYear_stage db user yearId year prevYear hyear hne1
    hprev hterms
  have hcte := (checkPrevTermExams_none_iff db user _).mpr hall
  have hstage1 : canAccessYear db user yearId =
      yearCumulativeStage db user prevYear := by
    rw [hstage0]
    simp only [hcte]
  rw [hstage1, yearCumulativeStage_passed db user prevYear hcum, hempty,
    yearGpaCheck_nil]

/-- C5 counterexample: in the empty-transcript year scenario all term
exams and the cumulative review are passed, the previous-year GPA does
not exist (computeGPA of the qualifying entries is null, so it is not
at least 70), yet canAccessYear grants access — refuting the claimed
equivalence with an unconditional GPA requirement. -/
theorem canAccessYear_counterexample :
    canAccessYear exYearDB "u" "y2" = { accessible := true, reason := none }
    ∧ allPrevTermExamsPassed exYearDB "u"
        (exYearDB.terms.filter (fun t => decide (t.year_id = "y1"))) = true
    ∧ cumulativeReviewPassed exYearDB "u" "y1" = true
    ∧ yearTranscript exYearDB "u" "y1" = []
    ∧ computeGPA ((yearTranscript exYearDB "u" "y1").map
        (fun e => ⟨e.assessment_type, e.score⟩)) = none := by
  refine ⟨by decide, by decide, by decide, by decide, ?_⟩
  rw [show yearTranscript exYearDB "u" "y1" = [] from by decide]
  simp [computeGPA]

/-- C5 amended witness: with one passed module exam scored 68 the
previous-year GPA is 68, below 70, so year y2 is denied with the
GPA reason. -/
theorem canAccessYear_gpa_gate_witness :
    specYearGPA (yearTranscript exYearDB68 "u" "y1") < 70
    ∧ yearTranscript exYearDB68 "u" "y1" ≠ []
    ∧ canAccessYear exYearDB68 "u" "y2" =
        { accessible := false, reason := some (gpaReason 68) } := by
  have hentries : yearTranscript exYearDB68 "u" "y1" =
      [⟨"u", "y1", .module_exam, 68, true⟩] := by
    simp [yearTranscript, exYearDB68, exYearDB]
  have hgpa : specYearGPA (yearTranscript exYearDB68 "u" "y1") = 68 := by
    rw [hentries]
    simp [specYearGPA, yearEntryWeight]
  refine ⟨by rw [hgpa]; norm_num, by rw [hentries]; simp, ?_⟩
  have h := (canAccessYear_gpa_gate exYearDB68 "u" "y2" ⟨"y2", 2⟩ ⟨"y1", 1⟩
    (by decide) (by decide) (by decide) (by decide)).2
    (by decide) (by decide) (by rw [hentries]; simp) (by rw [hgpa]; norm_num)
  rw [h, hgpa, jsRound_eq_of 68 68 (by norm_num) (by norm_num)]

/-- C10 witness: the empty-transcript year scenario grants access to
year y2 through the theorem. -/
theorem canAccessYear_skips_absent_gpa_witness :
    (1 : ℤ) < 2
    ∧ allPrevTermExamsPassed exYearDB "u"
        (exYearDB.terms.filter (fun t => decide (t.year_id = "y1"))) = true
    ∧ cumulativeReviewPassed exYearDB "u" "y1" = true
    ∧ yearTranscript exYearDB "u" "y1" = []
    ∧ canAccessYear exYearDB "u" "y2" = { accessible := true, reason := none } :=
  ⟨by decide, by decide, by decide, by decide,
   canAccessYear_skips_absent_gpa exYearDB "u" "y2" ⟨"y2", 2⟩ ⟨"y1", 1⟩
     (by decide) (by decide) (by decide) (by decide) (by decide) (by decide)
     (by decide)⟩

end TheSystem
